import Mathlib

/-
Verification of the resumable batch data-movement engine of the
couchbase_medium repository (license-plate / brand / model seeders and the
environment builder).  Each Python function relevant to the verified
properties is shallowly embedded as an executable Lean definition; the
theorems at the end of the file settle the specification's claims about
those definitions.
-/

set_option maxHeartbeats 1000000

/-- Embedding of the batching loop of `generate_plates.main` (lines 202-211):
each generated record is appended to the current batch `acc`; when
`len(batch) >= batch_size` the batch is flushed; after the loop a final
non-empty partial batch is flushed (`if batch: batches.append(batch)`).
The brand/model generators (`generate_brand_data`, `generate_car_model_data`)
flush on `len(batch) == batch_size`, which coincides with `>=` because the
batch grows one record at a time. -/
def batchesAux {α : Type} (B : Nat) : List α → List α → List (List α)
  | acc, [] => if acc.isEmpty then [] else [acc]
  | acc, x :: xs =>
    if B ≤ (acc ++ [x]).length then (acc ++ [x]) :: batchesAux B [] xs
    else batchesAux B (acc ++ [x]) xs

/-- The batch list produced for an input sequence `xs` and batch size `B`,
as assembled by `generate_plates.main`. -/
def batches {α : Type} (B : Nat) (xs : List α) : List (List α) :=
  batchesAux B [] xs

/-- Take/drop reformulation of the batching loop, used for reasoning:
the first chunk is the first `B` elements, the rest is chunked recursively. -/
def chunksTD {α : Type} (B : Nat) : List α → List (List α)
  | [] => []
  | x :: xs => (x :: xs.take (B - 1)) :: chunksTD B (xs.drop (B - 1))
termination_by l => l.length
decreasing_by
  simp only [List.length_drop, List.length_cons]
  omega

lemma chunksTD_nil {α : Type} (B : Nat) : chunksTD B ([] : List α) = [] := by
  rw [chunksTD]

lemma chunksTD_cons {α : Type} (B : Nat) (x : α) (xs : List α) :
    chunksTD B (x :: xs) = (x :: xs.take (B - 1)) :: chunksTD B (xs.drop (B - 1)) := by
  rw [chunksTD]

lemma chunksTD_block {α : Type} (B : Nat) (hB : 0 < B) (ys zs : List α)
    (hlen : ys.length = B) : chunksTD B (ys ++ zs) = ys :: chunksTD B zs := by
  cases ys with
  | nil => simp [hlen.symm] at hB
  | cons y ys' =>
    rw [List.cons_append, chunksTD_cons]
    have h1 : ys'.length = B - 1 := by simp at hlen; omega
    rw [List.take_left' h1, List.drop_left' h1]

lemma batchesAux_eq_chunksTD {α : Type} (B : Nat) (hB : 0 < B) :
    ∀ (xs acc : List α), acc.length < B →
      batchesAux B acc xs = chunksTD B (acc ++ xs)
  | [], acc => by
    intro hacc
    rw [batchesAux]
    cases acc with
    | nil => simp [chunksTD_nil]
    | cons a as =>
      simp only [List.isEmpty_cons, List.append_nil]
      rw [chunksTD_cons]
      have h1 : as.take (B - 1) = as := by
        apply List.take_of_length_le
        simp at hacc; omega
      have h2 : as.drop (B - 1) = [] := by
        apply List.drop_eq_nil_of_le
        simp at hacc; omega
      simp [h1, h2, chunksTD_nil]
  | x :: xs, acc => by
    intro hacc
    rw [batchesAux]
    by_cases hfull : B ≤ (acc ++ [x]).length
    · have hlen : (acc ++ [x]).length = B := by simp at hfull ⊢; omega
      rw [if_pos hfull, batchesAux_eq_chunksTD B hB xs [] (by simpa using hB)]
      have : acc ++ x :: xs = (acc ++ [x]) ++ xs := by simp
      rw [this, chunksTD_block B hB _ _ hlen]
      simp
    · rw [if_neg hfull, batchesAux_eq_chunksTD B hB xs (acc ++ [x]) (by simp at hfull ⊢; omega)]
      simp

lemma batches_eq_chunksTD {α : Type} (B : Nat) (hB : 0 < B) (xs : List α) :
    batches B xs = chunksTD B xs := by
  rw [batches, batchesAux_eq_chunksTD B hB xs [] (by simpa using hB)]
  simp

lemma chunksTD_eq_nil_iff {α : Type} (B : Nat) (xs : List α) :
    chunksTD B xs = [] ↔ xs = [] := by
  cases xs with
  | nil => simp [chunksTD_nil]
  | cons x xs => rw [chunksTD_cons]; simp

lemma chunksTD_join {α : Type} (B : Nat) (xs : List α) :
    (chunksTD B xs).flatten = xs := by
  induction xs using chunksTD.induct B with
  | case1 => simp [chunksTD_nil]
  | case2 x xs ih =>
    rw [chunksTD_cons]
    simp only [List.flatten_cons, ih, List.cons_append, List.take_append_drop]

lemma chunksTD_length {α : Type} (B : Nat) (hB : 0 < B) (xs : List α) :
    (chunksTD B xs).length = (xs.length + B - 1) / B := by
  induction xs using chunksTD.induct B with
  | case1 =>
    rw [chunksTD_nil]
    simp only [List.length_nil, Nat.zero_add]
    rw [Nat.div_eq_of_lt (by omega)]
  | case2 x xs ih =>
    rw [chunksTD_cons]
    simp only [List.length_cons, ih, List.length_drop]
    rcases le_or_lt (B - 1) xs.length with h | h
    · have e1 : xs.length - (B - 1) + B - 1 = xs.length := by omega
      have e2 : xs.length + 1 + B - 1 = xs.length + B := by omega
      rw [e1, e2, Nat.add_div_right _ hB]
    · have e1 : xs.length - (B - 1) + B - 1 = B - 1 := by omega
      have e2 : xs.length + 1 + B - 1 = xs.length + B := by omega
      rw [e1, e2, Nat.add_div_right _ hB,
        Nat.div_eq_of_lt (by omega), Nat.div_eq_of_lt (by omega)]

lemma chunksTD_mem {α : Type} (B : Nat) (hB : 0 < B) (xs : List α) :
    ∀ c ∈ chunksTD B xs, c ≠ [] ∧ c.length ≤ B := by
  induction xs using chunksTD.induct B with
  | case1 => rw [chunksTD_nil]; intro c hc; cases hc
  | case2 x xs ih =>
    rw [chunksTD_cons]
    intro c hc
    rcases List.mem_cons.mp hc with h | h
    · subst h
      refine ⟨by simp, ?_⟩
      simp only [List.length_cons, List.length_take]
      omega
    · exact ih c h

lemma chunksTD_dropLast {α : Type} (B : Nat) (hB : 0 < B) (xs : List α) :
    ∀ c ∈ (chunksTD B xs).dropLast, c.length = B := by
  induction xs using chunksTD.induct B with
  | case1 => rw [chunksTD_nil]; intro c hc; cases hc
  | case2 x xs ih =>
    rw [chunksTD_cons]
    intro c hc
    by_cases hrest : chunksTD B (xs.drop (B - 1)) = []
    · rw [hrest] at hc
      cases hc
    · rw [List.dropLast_cons_of_ne_nil hrest] at hc
      rcases List.mem_cons.mp hc with h | h
      · subst h
        have hxs : ¬ (xs.drop (B - 1) = []) := by
          intro h0; exact hrest (by rw [h0, chunksTD_nil])
        have hlen : B - 1 ≤ xs.length := by
          by_contra hcon
          exact hxs (List.drop_eq_nil_of_le (by omega))
        simp only [List.length_cons, List.length_take]
        omega
      · exact ih c h

lemma chunksTD_getLast? {α : Type} (B : Nat) (hB : 0 < B) (xs : List α)
    (hxs : xs ≠ []) :
    ∃ c, (chunksTD B xs).getLast? = some c ∧
      c.length = if xs.length % B = 0 then B else xs.length % B := by
  induction xs using chunksTD.induct B with
  | case1 => exact absurd rfl hxs
  | case2 x xs ih =>
    rw [chunksTD_cons]
    by_cases hrest : xs.drop (B - 1) = []
    · rw [hrest, chunksTD_nil]
      refine ⟨x :: xs.take (B - 1), rfl, ?_⟩
      have hlen : xs.length ≤ B - 1 := by
        by_contra hcon
        have := List.drop_eq_nil_iff.mp hrest
        omega
      simp only [List.length_cons, List.length_take]
      rcases Nat.lt_or_ge (xs.length + 1) B with h | h
      · rw [if_neg (by rw [Nat.mod_eq_of_lt h]; omega), Nat.mod_eq_of_lt h]
        omega
      · have heq : xs.length + 1 = B := by omega
        rw [heq, if_pos (Nat.mod_self B)]
        omega
    · have hne : chunksTD B (xs.drop (B - 1)) ≠ [] :=
        fun h0 => hrest ((chunksTD_eq_nil_iff B _).mp h0)
      obtain ⟨c, hc, hclen⟩ := ih hrest
      refine ⟨c, ?_, ?_⟩
      · rw [List.getLast?_cons, hc]
        simp [List.getLastD, hc]
      · have hdroplen : B - 1 ≤ xs.length := by
          by_contra hcon
          exact hrest (List.drop_eq_nil_of_le (by omega))
        have e1 : (xs.drop (B - 1)).length = xs.length + 1 - B := by
          simp only [List.length_drop]; omega
        have e2 : (xs.length + 1) % B = (xs.length + 1 - B) % B := by
          rw [Nat.mod_eq_sub_mod (by omega)]
        rw [e1] at hclen
        simp only [List.length_cons, e2]
        exact hclen

/-- A decimal digit character, as produced by Python string formatting of a
digit value `d < 10` (character code 48 + d). -/
def natDigitChar (d : Nat) : Char := Char.ofNat (48 + d)

/-- The decimal digit characters of `n`, most significant first: the embedding
of Python's `str(n)` / `%d` rendering of a non-negative integer. -/
def decDigits (n : Nat) : List Char :=
  if _h : n < 10 then [natDigitChar n]
  else decDigits (n / 10) ++ [natDigitChar (n % 10)]
termination_by n
decreasing_by
  exact Nat.div_lt_self (by omega) (by omega)

lemma decDigits_lt {n : Nat} (h : n < 10) : decDigits n = [natDigitChar n] := by
  rw [decDigits]; simp [h]

lemma decDigits_ge {n : Nat} (h : ¬ n < 10) :
    decDigits n = decDigits (n / 10) ++ [natDigitChar (n % 10)] := by
  rw [decDigits]; simp [h]

/-- Embedding of the Python format expression `f"{index:09d}"`: the decimal
rendering of `index`, left-padded with '0' to a width of 9 (wider numbers are
rendered in full). -/
def zeroPad9 (n : Nat) : List Char :=
  List.replicate (9 - (decDigits n).length) '0' ++ decDigits n

/-- Embedding of `generate_plates.generate_document_key` (lines 62-63):
`f"car_plates_{index:09d}"`. -/
def generate_document_key (index : Nat) : String :=
  String.mk ("car_plates_".data ++ zeroPad9 index)

/-- Decimal parser used to invert `decDigits` (proof device, not source code). -/
def parseDecGo (acc : Nat) : List Char → Nat
  | [] => acc
  | c :: cs => parseDecGo (acc * 10 + (c.toNat - 48)) cs

lemma parseDecGo_nil (acc : Nat) : parseDecGo acc [] = acc := rfl

lemma parseDecGo_cons (acc : Nat) (c : Char) (cs : List Char) :
    parseDecGo acc (c :: cs) = parseDecGo (acc * 10 + (c.toNat - 48)) cs := rfl

lemma natDigitChar_toNat {d : Nat} (h : d < 10) : (natDigitChar d).toNat = 48 + d := by
  interval_cases d <;> rfl

lemma parseDecGo_append (l1 l2 : List Char) : ∀ acc,
    parseDecGo acc (l1 ++ l2) = parseDecGo (parseDecGo acc l1) l2 := by
  induction l1 with
  | nil => intro acc; rfl
  | cons c cs ih => intro acc; exact ih (acc * 10 + (c.toNat - 48))

lemma parseDecGo_decDigits (n : Nat) : ∀ acc,
    parseDecGo acc (decDigits n) = acc * 10 ^ (decDigits n).length + n := by
  induction n using decDigits.induct with
  | case1 n h =>
    intro acc
    rw [decDigits_lt h, parseDecGo_cons, parseDecGo_nil, natDigitChar_toNat h]
    simp only [List.length_cons, List.length_nil, pow_one]
    omega
  | case2 n h ih =>
    intro acc
    rw [decDigits_ge h, parseDecGo_append, ih acc, parseDecGo_cons, parseDecGo_nil]
    simp only [List.length_append, List.length_cons, List.length_nil]
    rw [natDigitChar_toNat (Nat.mod_lt n (by omega))]
    have hmod : 48 + n % 10 - 48 = n % 10 := by omega
    rw [hmod]
    calc (acc * 10 ^ (decDigits (n / 10)).length + n / 10) * 10 + n % 10
        = acc * (10 ^ (decDigits (n / 10)).length * 10) + (10 * (n / 10) + n % 10) := by
          ring
      _ = acc * 10 ^ ((decDigits (n / 10)).length + (0 + 1)) + n := by
          rw [Nat.div_add_mod, ← Nat.pow_succ]

lemma parseDecGo_zeros : ∀ k, parseDecGo 0 (List.replicate k '0') = 0 := by
  intro k
  induction k with
  | zero => rfl
  | succ k ih =>
    rw [List.replicate_succ, parseDecGo_cons]
    have h0 : (0 : Nat) * 10 + (Char.toNat '0' - 48) = 0 := rfl
    rw [h0, ih]

lemma parseDecGo_zeroPad9 (n : Nat) : parseDecGo 0 (zeroPad9 n) = n := by
  rw [zeroPad9, parseDecGo_append, parseDecGo_zeros, parseDecGo_decDigits]
  simp

lemma zeroPad9_injective : Function.Injective zeroPad9 := by
  intro m n h
  have := parseDecGo_zeroPad9 m
  rw [h, parseDecGo_zeroPad9 n] at this
  exact this.symm

lemma generate_document_key_injective : Function.Injective generate_document_key := by
  intro m n h
  have hdata : "car_plates_".data ++ zeroPad9 m = "car_plates_".data ++ zeroPad9 n :=
    congrArg String.data h
  exact zeroPad9_injective (List.append_cancel_left hdata)

/-- Python's `string.ascii_uppercase`. -/
def asciiUppercase : List Char := "ABCDEFGHIJKLMNOPQRSTUVWXYZ".data

/-- Python's `string.digits`. -/
def asciiDigits : List Char := "0123456789".data

/-- Embedding of `generate_plates.generate_license_plate` (lines 54-59):
for each character of the format string, an 'X' becomes a random uppercase
letter, a '9' becomes a random digit, and anything else becomes '-'.
`choice i` is the index drawn by the `random.choice` call at position `i`
of the format string (reduced modulo the choice list's length, since
`random.choice` returns an element of the list). -/
def generate_license_plate (format_str : List Char) (choice : Nat → Nat) : List Char :=
  format_str.enum.map (fun p =>
    if p.2 = 'X' then asciiUppercase.getD (choice p.1 % asciiUppercase.length) 'A'
    else if p.2 = '9' then asciiDigits.getD (choice p.1 % asciiDigits.length) '0'
    else '-')

/-- One entry of `car_models.json` as consumed by `select_random_car`. -/
structure CarEntry where
  brand : String
  models : List String

/-- Embedding of `generate_plates.select_random_car` (lines 47-51): a random
entry from the car data, then a random model of that entry; the two
`random.choice` draws are the `carChoice` and `modelChoice` indices. -/
def select_random_car (cars_data : List CarEntry) (carChoice modelChoice : Nat) :
    String × String :=
  let entry := cars_data.getD (carChoice % cars_data.length) ⟨"", []⟩
  (entry.brand, entry.models.getD (modelChoice % entry.models.length) "")

/-- The seven plate formats of `generate_license_plate_data` (lines 135-143). -/
def plateFormats : List (List Char) :=
  ["X-999-XX".data, "XX-99-99".data, "99-99-XX".data, "XX-99-XX".data,
   "99-XX-99".data, "XX-XX-99".data, "99-XX-XX".data]

/-- The document value built by `generate_license_plate_data` (line 147). -/
structure PlateDoc where
  license_plate : List Char
  brand : String
  model : String
  isParked : Bool
  isPaid : Bool

/-- Embedding of `generate_plates.generate_license_plate_data` (lines 134-148).
All randomness is passed in explicitly: `fmtChoice` selects the format,
`plateChoice` drives the per-character draws of the plate, and
`carChoice`/`modelChoice` drive `select_random_car`.  The document key is
computed from `index` alone. -/
def generate_license_plate_data (index : Nat) (cars_data : List CarEntry)
    (fmtChoice : Nat) (plateChoice : Nat → Nat) (carChoice modelChoice : Nat) :
    String × PlateDoc :=
  let format_str := plateFormats.getD (fmtChoice % plateFormats.length) []
  let license_plate := generate_license_plate format_str plateChoice
  let bm := select_random_car cars_data carChoice modelChoice
  let document_key := generate_document_key index
  (document_key,
   { license_plate := license_plate, brand := bm.1, model := bm.2,
     isParked := false, isPaid := false })

/-- The resume offset computed by `get_highest_existing_index` on the success
path: the maximum numeric key suffix among the indices already written in the
target collection (the `SELECT MAX(TO_NUMBER(SUBSTR(META().id, 12)))` over
keys LIKE 'car_plates_%'), or 0 when no matching document exists. -/
def highest_existing_index (written : List Nat) : Nat := written.foldr max 0

/-- `start_index = highest_index + 1` (`generate_plates.main`, line 198). -/
def start_index (written : List Nat) : Nat := highest_existing_index written + 1

/-- `total_to_generate = max(0, args.total - highest_index)` (line 199);
truncated Nat subtraction is exactly `max(0, args.total - highest_index)`. -/
def total_to_generate (total : Nat) (written : List Nat) : Nat :=
  total - highest_existing_index written

/-- The indices produced by the generation loop (lines 204-206):
`index = start_index + i` for `i in range(total_to_generate)`. -/
def generated_indices (total : Nat) (written : List Nat) : List Nat :=
  (List.range (total_to_generate total written)).map (fun i => start_index written + i)

/-- The document keys of the records generated by a run. -/
def generated_keys (total : Nat) (written : List Nat) : List String :=
  (generated_indices total written).map generate_document_key

lemma highest_existing_index_range' (n : Nat) :
    highest_existing_index (List.range' 1 n) = n := by
  suffices h : ∀ s n : Nat, (List.range' s n).foldr max 0 = if n = 0 then 0 else s + n - 1 by
    have := h 1 n
    rw [highest_existing_index, this]
    rcases Nat.eq_zero_or_pos n with h0 | h0
    · simp [h0]
    · rw [if_neg (by omega)]; omega
  intro s n
  induction n generalizing s with
  | zero => simp
  | succ m ih =>
    rw [List.range'_succ, List.foldr_cons, ih (s + 1)]
    rcases Nat.eq_zero_or_pos m with h0 | h0
    · simp [h0]
    · rw [if_neg (by omega), if_neg (by omega)]
      omega

/-- Embedding of the Python extended slice `l[start::step]` used at
`generate_plates.main` line 217 (`batches[i::args.threads]`): the elements
at indices `start, start + step, start + 2*step, ...` in order. -/
def sliceStep {α : Type} : List α → Nat → Nat → List α
  | [], _, _ => []
  | x :: xs, 0, step => x :: sliceStep (xs.drop (step - 1)) 0 step
  | _ :: xs, s + 1, step => sliceStep xs s step
termination_by l _ _ => l.length
decreasing_by
  · simp only [List.length_drop, List.length_cons]; omega
  · simp only [List.length_cons]; omega

/-- Embedding of `batch_slices = [batches[i::args.threads] for i in range(args.threads)]`
(`generate_plates.main`, line 217). -/
def batch_slices {α : Type} (batchList : List α) (threads : Nat) : List (List α) :=
  (List.range threads).map (fun i => sliceStep batchList i threads)

lemma sliceStep_getElem? {α : Type} (l : List α) (s step : Nat) :
    ∀ (k : Nat), 0 < step → (sliceStep l s step)[k]? = l[s + k * step]? := by
  induction l, s, step using sliceStep.induct with
  | case1 s step => intro k _; simp [sliceStep]
  | case2 x xs step ih =>
    intro k hstep
    rw [sliceStep]
    cases k with
    | zero => simp
    | succ k =>
      rw [List.getElem?_cons_succ, ih k hstep, List.getElem?_drop]
      have hmul : (k + 1) * step = k * step + step := by ring
      have he : 0 + (k + 1) * step = ((step - 1) + (0 + k * step)) + 1 := by omega
      rw [he, List.getElem?_cons_succ]
  | case3 head xs s step ih =>
    intro k hstep
    rw [sliceStep, ih k hstep,
      show s.succ + k * step = (s + k * step) + 1 by omega, List.getElem?_cons_succ]

/-- The `--mode` command-line option of the seeders. -/
inductive WriteMode
  | insert
  | upsert
deriving DecidableEq

/-- The store's multi-document write operations, abstracted: `insertMulti b a`
(resp. `upsertMulti b a`) tells whether `collection.insert_multi` (resp.
`upsert_multi`) on batch `b` succeeds at attempt number `a`, i.e. whether it
raises a `CouchbaseException`. -/
structure StoreOps where
  insertMulti : List (String × PlateDoc) → Nat → Bool
  upsertMulti : List (String × PlateDoc) → Nat → Bool

/-- The store call performed by one attempt of `process_batch` for the given
mode (lines 156-159 of generate_plates.py). -/
def attemptWrite (ops : StoreOps) (batch : List (String × PlateDoc))
    (mode : WriteMode) (attempt : Nat) : Bool :=
  match mode with
  | .insert => ops.insertMulti batch attempt
  | .upsert => ops.upsertMulti batch attempt

/-- Retry loop of `generate_plates.process_batch` (lines 151-166):
`for attempt in range(retries)` — on success return `True`; on a
`CouchbaseException` sleep `2 ** attempt + random.uniform(0, 1)` seconds and
continue; after the loop return `False`.  The fuel argument is the number of
loop iterations left.  Returns (returned boolean, number of attempts
performed, list of delays slept). -/
def process_batchGo (write : Nat → Bool) (jitter : Nat → ℚ) :
    Nat → Nat → Bool × Nat × List ℚ
  | _, 0 => (false, 0, [])
  | attempt, fuel + 1 =>
    if write attempt then (true, 1, [])
    else
      let rest := process_batchGo write jitter (attempt + 1) fuel
      (rest.1, rest.2.1 + 1, ((2 : ℚ) ^ attempt + jitter attempt) :: rest.2.2)

/-- Embedding of `generate_plates.process_batch` (lines 151-166).  `jitter a`
is the value drawn by `random.uniform(0, 1)` at attempt `a`. -/
def process_batch (ops : StoreOps) (jitter : Nat → ℚ)
    (batch : List (String × PlateDoc)) (mode : WriteMode) (retries : Nat) :
    Bool × Nat × List ℚ :=
  process_batchGo (attemptWrite ops batch mode) jitter 0 retries

/-- Embedding of the worker body `process_batches` (lines 213-215): every
batch of the shard is processed in order with `process_batch` (the default
`retries=3` is used by the call site), regardless of earlier outcomes. -/
def process_batches (ops : StoreOps) (jitter : Nat → ℚ)
    (batches_slice : List (List (String × PlateDoc))) (mode : WriteMode) :
    List (Bool × Nat × List ℚ) :=
  batches_slice.map (fun b => process_batch ops jitter b mode 3)

lemma process_batchGo_allFail (write : Nat → Bool) (jitter : Nat → ℚ)
    (hfail : ∀ att, write att = false) :
    ∀ (fuel attempt : Nat),
      process_batchGo write jitter attempt fuel =
        (false, fuel, (List.range' attempt fuel).map (fun a => (2 : ℚ) ^ a + jitter a)) := by
  intro fuel
  induction fuel with
  | zero => intro attempt; rfl
  | succ fuel ih =>
    intro attempt
    rw [process_batchGo]
    rw [hfail attempt, if_neg (by simp)]
    rw [ih (attempt + 1)]
    simp [List.range'_succ]

/-- One attempt's outcome for the resume query of
`get_highest_existing_index`. -/
inductive QueryAttempt
  | row (max_index : Option Nat)
  | qerr (keyspaceNotFound : Bool)

/-- Loop of `generate_plates.get_highest_existing_index` (lines 108-131):
`for attempt in range(retries)` — on a successful query return the row's
`max_index` (or 0 when it is NULL, i.e. no document matches the key
pattern); on a `CouchbaseException` whose message contains "Keyspace not
found", if this is not the last attempt, sleep `delay` seconds and continue;
on any other `CouchbaseException` (or on the last attempt) log and return 0.
`query a` is the store's response to attempt `a`.  Returns (value returned,
attempts performed, delays slept); the value is `none` only when the loop
runs zero iterations (Python falls off the function, returning None). -/
def get_highest_existing_indexGo (query : Nat → QueryAttempt) (retries delay : Nat) :
    Nat → Nat → Option Nat × Nat × List Nat
  | _, 0 => (none, 0, [])
  | attempt, fuel + 1 =>
    match query attempt with
    | .row (some m) => (some m, 1, [])
    | .row none => (some 0, 1, [])
    | .qerr ks =>
      if ks = true ∧ attempt + 1 < retries then
        let rest := get_highest_existing_indexGo query retries delay (attempt + 1) fuel
        (rest.1, rest.2.1 + 1, delay :: rest.2.2)
      else (some 0, 1, [])

/-- Embedding of `generate_plates.get_highest_existing_index` (lines 108-131);
the call site uses the default `retries=10, delay=1`. -/
def get_highest_existing_index (query : Nat → QueryAttempt) (retries delay : Nat) :
    Option Nat × Nat × List Nat :=
  get_highest_existing_indexGo query retries delay 0 retries

lemma get_highest_existing_indexGo_row (query : Nat → QueryAttempt)
    (retries delay attempt fuel : Nat) (m : Option Nat)
    (h : query attempt = .row m) :
    get_highest_existing_indexGo query retries delay attempt (fuel + 1) =
      (some (m.getD 0), 1, []) := by
  rw [get_highest_existing_indexGo, h]
  cases m <;> rfl

lemma get_highest_existing_indexGo_qerr (query : Nat → QueryAttempt)
    (retries delay attempt fuel : Nat) (ks : Bool)
    (h : query attempt = .qerr ks) :
    get_highest_existing_indexGo query retries delay attempt (fuel + 1) =
      (if ks = true ∧ attempt + 1 < retries then
        ((get_highest_existing_indexGo query retries delay (attempt + 1) fuel).1,
         (get_highest_existing_indexGo query retries delay (attempt + 1) fuel).2.1 + 1,
         delay :: (get_highest_existing_indexGo query retries delay (attempt + 1) fuel).2.2)
      else (some 0, 1, [])) := by
  rw [get_highest_existing_indexGo, h]

lemma get_highest_existing_indexGo_allKs (query : Nat → QueryAttempt)
    (retries delay : Nat) (hks : ∀ att, query att = .qerr true) :
    ∀ (fuel attempt : Nat), 1 ≤ fuel → attempt + fuel = retries →
      get_highest_existing_indexGo query retries delay attempt fuel =
        (some 0, fuel, List.replicate (fuel - 1) delay) := by
  intro fuel
  induction fuel with
  | zero => intro attempt h1 _; omega
  | succ fuel ih =>
    intro attempt _ hsum
    rw [get_highest_existing_indexGo_qerr query retries delay attempt fuel true (hks attempt)]
    rcases Nat.eq_zero_or_pos fuel with h0 | h0
    · subst h0
      rw [if_neg (by omega)]
      rfl
    · rw [if_pos ⟨rfl, by omega⟩, ih (attempt + 1) (by omega) (by omega)]
      have hf : fuel + 1 - 1 = (fuel - 1) + 1 := by omega
      rw [hf, List.replicate_succ]

/-- The per-record outcome of a `collection.insert` call:
success, `DocumentExistsException`, or any other `CouchbaseException`. -/
inductive InsertResult
  | ok
  | duplicate
  | failure
deriving DecidableEq

/-- The `stats` dictionary of `generate_brands.main` (line 161). -/
structure Stats where
  successful : Nat
  skipped : Nat
  failed : Nat
deriving DecidableEq

/-- Log severities emitted by the seeders. -/
inductive Severity
  | info
  | warning
  | error
deriving DecidableEq

/-- The per-record insert loop of `generate_brands.process_brands_batch`
(lines 89-95): each record is inserted individually; on
`DocumentExistsException` the record is counted in `skipped` (no log is
emitted); any other `CouchbaseException` propagates to the outer handler,
aborting the loop with the increments made so far kept.  The boolean of the
result records whether such an exception was raised. -/
def brandsInsertLoop (outcome : String → InsertResult) :
    List (String × String) → Stats → Stats × Bool
  | [], stats => (stats, false)
  | (k, _) :: rest, stats =>
    match outcome k with
    | .ok => brandsInsertLoop outcome rest
        { stats with successful := stats.successful + 1 }
    | .duplicate => brandsInsertLoop outcome rest
        { stats with skipped := stats.skipped + 1 }
    | .failure => (stats, true)

/-- Embedding of `generate_brands.process_brands_batch` (lines 86-104).
`outcome k` is the store's response to inserting key `k`; `upsertOk` tells
whether the single `upsert_multi` call of upsert mode succeeds.  Returns the
updated stats and the severities of the log records emitted: the
`logger.info` batch-duration line on the normal path, or the outer
`logger.error` when a non-duplicate store error aborts the batch, in which
case `failed` is increased by the full batch size. -/
def process_brands_batch (outcome : String → InsertResult) (upsertOk : Bool)
    (batch : List (String × String)) (mode : WriteMode) (stats : Stats) :
    Stats × List Severity :=
  match mode with
  | .insert =>
    let r := brandsInsertLoop outcome batch stats
    if r.2 then
      ({ r.1 with failed := r.1.failed + batch.length }, [Severity.error])
    else (r.1, [Severity.info])
  | .upsert =>
    if upsertOk then
      ({ stats with successful := stats.successful + batch.length }, [Severity.info])
    else
      ({ stats with failed := stats.failed + batch.length }, [Severity.error])

/-- The per-record insert loop of `generate_models.process_car_models`
(lines 101-107): on `DocumentExistsException` the key is appended to
`failed_documents` and the failure is logged with `logger.error`; any other
`CouchbaseException` propagates to the outer handler.  Accumulates the
`failed_documents` list and log severities in emission order. -/
def modelsInsertLoop (outcome : String → InsertResult) :
    List (String × String) → List String → List Severity →
      List String × List Severity × Bool
  | [], fd, logs => (fd, logs, false)
  | (k, _) :: rest, fd, logs =>
    match outcome k with
    | .ok => modelsInsertLoop outcome rest fd logs
    | .duplicate => modelsInsertLoop outcome rest (fd ++ [k]) (logs ++ [Severity.error])
    | .failure => (fd, logs, true)

/-- Embedding of `generate_models.process_car_models` (lines 98-115).
Returns the final `failed_documents` list (empty when the loop was aborted
by a non-duplicate error, since the local list is discarded) and the log
severities emitted: the per-duplicate `logger.error` lines, then either the
outer `logger.error` on abort, or the `logger.info` summary plus a
`logger.warning` when some documents already existed. -/
def process_car_models (outcome : String → InsertResult) (upsertOk : Bool)
    (batch : List (String × String)) (mode : WriteMode) :
    List String × List Severity :=
  match mode with
  | .insert =>
    let r := modelsInsertLoop outcome batch [] []
    if r.2.2 then ([], r.2.1 ++ [Severity.error])
    else (r.1,
      r.2.1 ++ [Severity.info] ++
        (if r.1.isEmpty then [] else [Severity.warning]))
  | .upsert =>
    if upsertOk then ([], [Severity.info]) else ([], [Severity.error])

/-- The configuration facts checked by `build_environment.validate_config`
(lines 94-106). -/
structure BuildConfig where
  bucketNameTruthy : Bool
  scopesIsList : Bool
  indexesIsDict : Bool

/-- Embedding of `build_environment.validate_config`: `True` iff no
`sys.exit(1)` is taken. -/
def validate_config (c : BuildConfig) : Bool :=
  c.bucketNameTruthy && c.scopesIsList && c.indexesIsDict

/-- Exit code of `build_environment.main` (lines 271-294): `validate_config`
exits 1 on invalid configuration; a `CouchbaseException` escaping the `try`
block (connection or provisioning failure) leads to `sys.exit(1)`; otherwise
the script falls off `main` and exits 0.  Per-index creation errors inside
`create_indexes` are caught and logged, so they are part of
`couchbaseErr = false` runs. -/
def build_environment_exit (c : BuildConfig) (couchbaseErr : Bool) : Nat :=
  if validate_config c = false then 1
  else if couchbaseErr then 1 else 0

/-- Outcome of the `try` block of `generate_plates.main` (lines 190-225). -/
inductive RunOutcome
  | success (failedBatches : Nat)
  | raised

/-- The `try` block of `generate_plates.main`: a connection failure
(re-raised by `connect_to_couchbase`) raises inside the block; otherwise the
run completes with some number of failed batches (`process_batch` returning
False never raises). -/
def plates_try_block (connectOk : Bool) (failedBatches : Nat) : RunOutcome :=
  if connectOk then .success failedBatches else .raised

/-- Exit code of `generate_plates.main`: `load_connection_details` runs
before the `try` block, so an invalid configuration raises an uncaught
`ValueError` (interpreter exit code 1); every exception inside the `try`
block — including a connection failure — is caught by `except Exception`
(line 224), logged, and the function returns normally, so the process exits 0
regardless of the number of failed batches. -/
def generate_plates_exit (configValid connectOk : Bool) (failedBatches : Nat) : Nat :=
  if configValid = false then 1
  else
    match plates_try_block connectOk failedBatches with
    | .success _ => 0
    | .raised => 0

/-- C2 — Batch size invariant: for every input sequence of `N` records and
every batch size `B ≥ 1`, the batching step yields exactly `⌈N/B⌉ =
(N + B - 1) / B` batches in arrival order (their concatenation is the
input), none empty, each of size at most `B`, every batch except possibly
the last of size exactly `B`, the last of size `N % B` (or `B` when
`N % B = 0`), and `N = 0` yields zero batches. -/
theorem batch_size_invariant {α : Type} (B : Nat) (xs : List α) (hB : 1 ≤ B) :
    (batches B xs).length = (xs.length + B - 1) / B ∧
    (batches B xs).flatten = xs ∧
    (∀ c ∈ batches B xs, c ≠ [] ∧ c.length ≤ B) ∧
    (∀ c ∈ (batches B xs).dropLast, c.length = B) ∧
    (xs = [] → batches B xs = []) ∧
    (xs ≠ [] → ∃ c, (batches B xs).getLast? = some c ∧
      c.length = if xs.length % B = 0 then B else xs.length % B) := by
  have hB' : 0 < B := hB
  rw [batches_eq_chunksTD B hB']
  exact ⟨chunksTD_length B hB' xs, chunksTD_join B xs, chunksTD_mem B hB' xs,
    chunksTD_dropLast B hB' xs,
    fun h => by rw [h, chunksTD_nil],
    chunksTD_getLast? B hB' xs⟩

/-- Witness for C2 at `B = 3`, `xs = range 7`. -/
theorem batch_size_invariant_witness :
    (batches 3 (List.range 7)).length = ((List.range 7).length + 3 - 1) / 3 ∧
    (batches 3 (List.range 7)).flatten = List.range 7 :=
  ⟨(batch_size_invariant 3 (List.range 7) (by decide)).1,
   (batch_size_invariant 3 (List.range 7) (by decide)).2.1⟩

/-- C1 — Resume idempotence: when a previous run has already written keys
with indices `1 .. firstRunCount` and the second run uses the same target
count, the resume offset is `firstRunCount`, generation starts at
`firstRunCount + 1`, `max(0, total - firstRunCount) = 0` records are
generated, and the combined key set (existing keys plus newly generated
keys) holds no duplicate key. -/
theorem resume_idempotence (firstRunCount total : Nat) (written : List Nat)
    (hw : written = List.range' 1 firstRunCount)
    (ht : total = firstRunCount) :
    highest_existing_index written = firstRunCount ∧
    start_index written = firstRunCount + 1 ∧
    total_to_generate total written = 0 ∧
    generated_indices total written = [] ∧
    (written.map generate_document_key ++ generated_keys total written).Nodup := by
  subst hw ht
  have h1 : highest_existing_index (List.range' 1 total) = total :=
    highest_existing_index_range' total
  refine ⟨h1, by rw [start_index, h1], ?_, ?_, ?_⟩
  · rw [total_to_generate, h1]; omega
  · rw [generated_indices, total_to_generate, h1]
    simp [Nat.sub_self]
  · rw [generated_keys, generated_indices, total_to_generate, h1]
    simp only [Nat.sub_self, List.range_zero, List.map_nil, List.append_nil]
    exact (List.nodup_range' 1 total).map generate_document_key_injective

/-- Witness for C1 at `firstRunCount = total = 3`, `written = [1, 2, 3]`. -/
theorem resume_idempotence_witness :
    highest_existing_index [1, 2, 3] = 3 ∧
    total_to_generate 3 [1, 2, 3] = 0 ∧
    generated_indices 3 [1, 2, 3] = [] :=
  ⟨(resume_idempotence 3 3 [1, 2, 3] rfl rfl).1,
   (resume_idempotence 3 3 [1, 2, 3] rfl rfl).2.2.1,
   (resume_idempotence 3 3 [1, 2, 3] rfl rfl).2.2.2.1⟩

/-- C7 — Key determinism and uniqueness: the document key built by
`generate_license_plate_data` for counter value `index` equals
`generate_document_key index` whatever the random draws for the record
content are, and distinct counter values always produce distinct keys. -/
theorem key_determinism_uniqueness :
    (∀ (index : Nat) (cars_data : List CarEntry) (fmtChoice : Nat)
        (plateChoice : Nat → Nat) (carChoice modelChoice : Nat),
      (generate_license_plate_data index cars_data fmtChoice plateChoice
        carChoice modelChoice).1 = generate_document_key index) ∧
    (∀ m n : Nat, m ≠ n →
      generate_document_key m ≠ generate_document_key n) :=
  ⟨fun _ _ _ _ _ _ => rfl,
   fun _ _ hmn h => hmn (generate_document_key_injective h)⟩

/-- Witness for C7 at `index = 5` (arbitrary randomness) and the distinct
counters 1 and 2. -/
theorem key_determinism_uniqueness_witness :
    (generate_license_plate_data 5 [] 0 (fun i => i) 0 0).1 =
      generate_document_key 5 ∧
    generate_document_key 1 ≠ generate_document_key 2 :=
  ⟨key_determinism_uniqueness.1 5 [] 0 (fun i => i) 0 0,
   key_determinism_uniqueness.2 1 2 (by decide)⟩

/-- C9 — License-plate shape: for every format string the generated plate has
the same length, each 'X' position holds an uppercase ASCII letter, each '9'
position holds a decimal digit, and every other format character becomes
'-'. -/
theorem license_plate_shape (fmt : List Char) (choice : Nat → Nat) :
    (generate_license_plate fmt choice).length = fmt.length ∧
    ∀ (i : Nat) (c : Char), fmt[i]? = some c →
      ∃ r, (generate_license_plate fmt choice)[i]? = some r ∧
        (c = 'X' → r ∈ asciiUppercase) ∧
        (c = '9' → r ∈ asciiDigits) ∧
        (c ≠ 'X' → c ≠ '9' → r = '-') := by
  constructor
  · simp [generate_license_plate]
  · intro i c hc
    have he : (generate_license_plate fmt choice)[i]? =
        some (if c = 'X' then
                asciiUppercase.getD (choice i % asciiUppercase.length) 'A'
              else if c = '9' then
                asciiDigits.getD (choice i % asciiDigits.length) '0'
              else '-') := by
      rw [generate_license_plate, List.getElem?_map, List.getElem?_enum, hc]
      rfl
    refine ⟨_, he, ?_, ?_, ?_⟩
    · intro hX
      rw [if_pos hX,
        List.getD_eq_getElem asciiUppercase 'A' (Nat.mod_lt _ (by decide))]
      exact List.getElem_mem _
    · intro h9
      have hX : ¬ (c = 'X') := by rw [h9]; decide
      rw [if_neg hX, if_pos h9,
        List.getD_eq_getElem asciiDigits '0' (Nat.mod_lt _ (by decide))]
      exact List.getElem_mem _
    · intro hX h9
      rw [if_neg hX, if_neg h9]

/-- Witness for C9 at format "X9-" and position 0. -/
theorem license_plate_shape_witness :
    ∃ r, (generate_license_plate "X9-".data (fun i => i))[0]? = some r ∧
      ('X' = 'X' → r ∈ asciiUppercase) ∧ ('X' = '9' → r ∈ asciiDigits) ∧
      ('X' ≠ 'X' → 'X' ≠ '9' → r = '-') :=
  (license_plate_shape "X9-".data (fun i => i)).2 0 'X' (by decide)

/-- C6 — Static round-robin sharding: with `W ≥ 1` workers there are exactly
`W` shards; shard `i` is `batches[i::W]`; position `k` of shard `i` holds
exactly the batch at index `i + k·W` of the batch list (and nothing beyond
it); and every batch index `j` belongs to exactly one (shard, position)
pair, so the shards are pairwise disjoint and together cover the whole
batch list. -/
theorem round_robin_sharding {α : Type} (l : List α) (W : Nat) (hW : 1 ≤ W) :
    (batch_slices l W).length = W ∧
    (∀ i, i < W → (batch_slices l W)[i]? = some (sliceStep l i W)) ∧
    (∀ i k, (sliceStep l i W)[k]? = l[i + k * W]?) ∧
    (∀ j, j < l.length → ∃! p : Nat × Nat, p.1 < W ∧ p.1 + p.2 * W = j) := by
  refine ⟨by simp [batch_slices], ?_, ?_, ?_⟩
  · intro i hi
    rw [batch_slices, List.getElem?_map, List.getElem?_range hi]
    rfl
  · intro i k
    exact sliceStep_getElem? l i W k hW
  · intro j _
    refine ⟨(j % W, j / W), ⟨Nat.mod_lt _ hW, Nat.mod_add_div' j W⟩, ?_⟩
    rintro ⟨i, k⟩ ⟨hi, hik⟩
    have hiw : i = j % W := by
      rw [← hik, Nat.add_mul_mod_self_right, Nat.mod_eq_of_lt hi]
    have hkw : k = j / W := by
      rw [← hik, Nat.add_mul_div_right i k hW, Nat.div_eq_of_lt hi]
      omega
    simp [hiw, hkw]

/-- Witness for C6 at `l = [10, 20, 30]`, `W = 2`. -/
theorem round_robin_sharding_witness :
    (batch_slices [10, 20, 30] 2).length = 2 ∧
    (sliceStep [10, 20, 30] 0 2)[1]? = [10, 20, 30][0 + 1 * 2]? :=
  ⟨(round_robin_sharding [10, 20, 30] 2 (by decide)).1,
   (round_robin_sharding [10, 20, 30] 2 (by decide)).2.2.1 0 1⟩

/-- C3 — Retry with backoff and non-fatal failure: when every attempt to
write a batch fails with a store error, `process_batch` with the default
`retries = 3` performs exactly 3 attempts, sleeps `2^attempt + jitter`
seconds after each failed attempt (so each delay is at least `2^attempt`
when the jitter is non-negative), returns `False` instead of raising, and
the worker loop `process_batches` still processes every subsequent batch of
the same shard. -/
theorem retry_exhaustion (ops : StoreOps) (jitter : Nat → ℚ)
    (batch : List (String × PlateDoc)) (mode : WriteMode)
    (rest : List (List (String × PlateDoc)))
    (hfail : ∀ att, attemptWrite ops batch mode att = false)
    (hjit : ∀ att, 0 ≤ jitter att) :
    process_batch ops jitter batch mode 3 =
      (false, 3, [(2 : ℚ) ^ 0 + jitter 0, (2 : ℚ) ^ 1 + jitter 1,
        (2 : ℚ) ^ 2 + jitter 2]) ∧
    (∀ att : Nat, (2 : ℚ) ^ att ≤ (2 : ℚ) ^ att + jitter att) ∧
    process_batches ops jitter (batch :: rest) mode =
      process_batch ops jitter batch mode 3 ::
        process_batches ops jitter rest mode := by
  refine ⟨?_, fun att => by linarith [hjit att], rfl⟩
  rw [process_batch, process_batchGo_allFail _ _ hfail 3 0]
  rfl

/-- Witness for C3 with an always-failing store and zero jitter. -/
theorem retry_exhaustion_witness :
    process_batch ⟨fun _ _ => false, fun _ _ => false⟩ (fun _ => 0) []
        WriteMode.insert 3 =
      (false, 3, [(2 : ℚ) ^ 0 + 0, (2 : ℚ) ^ 1 + 0, (2 : ℚ) ^ 2 + 0]) :=
  (retry_exhaustion ⟨fun _ _ => false, fun _ _ => false⟩ (fun _ => 0) []
    WriteMode.insert [] (fun _ => rfl) (fun _ => le_refl 0)).1

/-- C5 — Resume query retry discrimination, at the call-site parameters
`retries = 10, delay = 1`: a run of "Keyspace not found" errors is retried
on every attempt, making exactly 10 attempts with 9 fixed 1-second delays
before returning 0; any other query error on the first attempt makes the
function return 0 immediately after 1 attempt with no delay; a successful
query with no matching row value returns 0 immediately; a successful query
with maximum suffix `m` returns `m` immediately. -/
theorem resume_query_retry (query : Nat → QueryAttempt) :
    ((∀ att, query att = .qerr true) →
      get_highest_existing_index query 10 1 = (some 0, 10, List.replicate 9 1)) ∧
    (query 0 = .qerr false →
      get_highest_existing_index query 10 1 = (some 0, 1, [])) ∧
    (query 0 = .row none →
      get_highest_existing_index query 10 1 = (some 0, 1, [])) ∧
    (∀ m : Nat, query 0 = .row (some m) →
      get_highest_existing_index query 10 1 = (some m, 1, [])) := by
  refine ⟨?_, ?_, ?_, ?_⟩
  · intro h
    rw [get_highest_existing_index,
      get_highest_existing_indexGo_allKs query 10 1 h 10 0 (by omega) (by omega)]
  · intro h
    rw [get_highest_existing_index,
      show (10 : Nat) = 9 + 1 from rfl,
      get_highest_existing_indexGo_qerr query (9 + 1) 1 0 9 false h,
      if_neg (by simp)]
  · intro h
    rw [get_highest_existing_index,
      show (10 : Nat) = 9 + 1 from rfl,
      get_highest_existing_indexGo_row query (9 + 1) 1 0 9 none h]
    rfl
  · intro m h
    rw [get_highest_existing_index,
      show (10 : Nat) = 9 + 1 from rfl,
      get_highest_existing_indexGo_row query (9 + 1) 1 0 9 (some m) h]
    rfl

/-- Witness for C5 with an always-keyspace-not-found store and with an
immediately-successful store. -/
theorem resume_query_retry_witness :
    get_highest_existing_index (fun _ => QueryAttempt.qerr true) 10 1 =
      (some 0, 10, List.replicate 9 1) ∧
    get_highest_existing_index (fun _ => QueryAttempt.row (some 42)) 10 1 =
      (some 42, 1, []) :=
  ⟨(resume_query_retry (fun _ => QueryAttempt.qerr true)).1 (fun _ => rfl),
   (resume_query_retry (fun _ => QueryAttempt.row (some 42))).2.2.2 42 rfl⟩

lemma brandsInsertLoop_allDup (outcome : String → InsertResult) :
    ∀ (batch : List (String × String)) (stats : Stats),
      (∀ p ∈ batch, outcome p.1 = InsertResult.duplicate) →
      brandsInsertLoop outcome batch stats =
        ({ stats with skipped := stats.skipped + batch.length }, false) := by
  intro batch
  induction batch with
  | nil => intro stats _; rfl
  | cons p rest ih =>
    intro stats hdup
    obtain ⟨k, v⟩ := p
    rw [brandsInsertLoop, hdup (k, v) (List.mem_cons_self _ _)]
    rw [ih { stats with skipped := stats.skipped + 1 }
      (fun q hq => hdup q (List.mem_cons_of_mem _ hq))]
    have he : stats.skipped + 1 + rest.length = stats.skipped + ((k, v) :: rest).length := by
      simp only [List.length_cons]
      omega
    rw [Prod.mk.injEq]
    exact ⟨by rw [he], rfl⟩

lemma modelsInsertLoop_allDup (outcome : String → InsertResult) :
    ∀ (batch : List (String × String)) (fd : List String) (logs : List Severity),
      (∀ p ∈ batch, outcome p.1 = InsertResult.duplicate) →
      modelsInsertLoop outcome batch fd logs =
        (fd ++ batch.map Prod.fst,
         logs ++ List.replicate batch.length Severity.error, false) := by
  intro batch
  induction batch with
  | nil => intro fd logs _; simp [modelsInsertLoop]
  | cons p rest ih =>
    intro fd logs hdup
    obtain ⟨k, v⟩ := p
    rw [modelsInsertLoop, hdup (k, v) (List.mem_cons_self _ _)]
    rw [ih (fd ++ [k]) (logs ++ [Severity.error])
      (fun q hq => hdup q (List.mem_cons_of_mem _ hq))]
    simp [List.replicate_succ]

/-- C4 counterexample: in `generate_models.process_car_models` (insert mode)
a record whose key already exists IS logged at error severity
(`logger.error(f"Failed to insert document with key: ...")`, line 107),
contradicting the claim that duplicates are never logged at error
severity. -/
theorem duplicate_logged_error_in_models :
    Severity.error ∈ (process_car_models (fun _ => InsertResult.duplicate) true
      [("car_models_001", "m")] WriteMode.insert).2 := by
  decide

/-- C4 (amended) — Duplicate keys in insert mode: in
`generate_brands.process_brands_batch`, a record whose key already exists is
counted as skipped, is not retried, does not fail the batch, and produces no
error-severity log; in `generate_models.process_car_models`, a duplicate is
likewise caught without retry or batch failure (the loop continues and every
key is collected in `failed_documents`), but each duplicate IS logged at
error severity. -/
theorem duplicate_key_insert_mode (outcome : String → InsertResult)
    (upsertOk : Bool) (batch : List (String × String)) (stats : Stats)
    (hdup : ∀ p ∈ batch, outcome p.1 = InsertResult.duplicate) :
    process_brands_batch outcome upsertOk batch WriteMode.insert stats =
      ({ stats with skipped := stats.skipped + batch.length }, [Severity.info]) ∧
    process_car_models outcome upsertOk batch WriteMode.insert =
      (batch.map Prod.fst,
       List.replicate batch.length Severity.error ++ [Severity.info] ++
         (if batch.isEmpty then [] else [Severity.warning])) := by
  constructor
  · simp only [process_brands_batch]
    rw [brandsInsertLoop_allDup outcome batch stats hdup]
    rfl
  · simp only [process_car_models]
    rw [modelsInsertLoop_allDup outcome batch [] [] hdup]
    have hie : (batch.map Prod.fst).isEmpty = batch.isEmpty := by
      cases batch <;> rfl
    simp [hie]

/-- Witness for C4 (amended) on a one-record batch whose key exists. -/
theorem duplicate_key_insert_mode_witness :
    process_brands_batch (fun _ => InsertResult.duplicate) true
        [("brand_001", "BMW")] WriteMode.insert ⟨4, 5, 6⟩ =
      ({ successful := 4, skipped := 5 + 1, failed := 6 }, [Severity.info]) ∧
    process_car_models (fun _ => InsertResult.duplicate) true
        [("brand_001", "BMW")] WriteMode.insert =
      (["brand_001"],
       List.replicate 1 Severity.error ++ [Severity.info] ++ [Severity.warning]) := by
  have h := duplicate_key_insert_mode (fun _ => InsertResult.duplicate) true
    [("brand_001", "BMW")] ⟨4, 5, 6⟩ (fun _ _ => rfl)
  exact ⟨h.1, by rw [h.2]; rfl⟩

lemma brandsInsertLoop_failAt (outcome : String → InsertResult) (k v : String)
    (suf : List (String × String)) (hk : outcome k = InsertResult.failure) :
    ∀ (pre : List (String × String)) (stats : Stats),
      (∀ p ∈ pre, outcome p.1 ≠ InsertResult.failure) →
      ∃ s d, s + d = pre.length ∧
        brandsInsertLoop outcome (pre ++ (k, v) :: suf) stats =
          ({ successful := stats.successful + s, skipped := stats.skipped + d,
             failed := stats.failed }, true) := by
  intro pre
  induction pre with
  | nil =>
    intro stats _
    refine ⟨0, 0, rfl, ?_⟩
    rw [List.nil_append, brandsInsertLoop, hk]
    rfl
  | cons p rest ih =>
    intro stats hpre
    obtain ⟨k', v'⟩ := p
    have hne := hpre (k', v') (List.mem_cons_self _ _)
    rw [List.cons_append, brandsInsertLoop]
    cases hout : outcome k' with
    | ok =>
      obtain ⟨s, d, hsd, hloop⟩ :=
        ih { stats with successful := stats.successful + 1 }
          (fun q hq => hpre q (List.mem_cons_of_mem _ hq))
      refine ⟨s + 1, d, by simp only [List.length_cons]; omega, ?_⟩
      rw [hloop]
      rw [Prod.mk.injEq, Stats.mk.injEq]
      refine ⟨⟨?_, rfl, rfl⟩, rfl⟩
      show stats.successful + 1 + s = stats.successful + (s + 1)
      omega
    | duplicate =>
      obtain ⟨s, d, hsd, hloop⟩ :=
        ih { stats with skipped := stats.skipped + 1 }
          (fun q hq => hpre q (List.mem_cons_of_mem _ hq))
      refine ⟨s, d + 1, by simp only [List.length_cons]; omega, ?_⟩
      rw [hloop]
      rw [Prod.mk.injEq, Stats.mk.injEq]
      refine ⟨⟨rfl, ?_, rfl⟩, rfl⟩
      show stats.skipped + 1 + d = stats.skipped + (d + 1)
      omega
    | failure => exact absurd hout hne

/-- C10 — Stats non-atomicity on batch error: in insert mode, when a
non-duplicate store error is raised at some record of the batch, the
per-record increments already made to `successful` and `skipped` are kept
and the *full* batch size is additionally added to `failed`, so
`successful + skipped + failed` grows by more than the batch size whenever
at least one record was processed before the error — the counters do not
partition the batch's records. -/
theorem stats_non_atomicity (outcome : String → InsertResult) (upsertOk : Bool)
    (pre suf : List (String × String)) (k v : String) (stats : Stats)
    (hpre : ∀ p ∈ pre, outcome p.1 ≠ InsertResult.failure)
    (hk : outcome k = InsertResult.failure) :
    ∃ s d, s + d = pre.length ∧
      process_brands_batch outcome upsertOk (pre ++ (k, v) :: suf)
          WriteMode.insert stats =
        ({ successful := stats.successful + s, skipped := stats.skipped + d,
           failed := stats.failed + (pre ++ (k, v) :: suf).length },
         [Severity.error]) ∧
      (0 < pre.length →
        stats.successful + s + (stats.skipped + d) +
            (stats.failed + (pre ++ (k, v) :: suf).length) >
          stats.successful + stats.skipped + stats.failed +
            (pre ++ (k, v) :: suf).length) := by
  obtain ⟨s, d, hsd, hloop⟩ := brandsInsertLoop_failAt outcome k v suf hk pre stats hpre
  refine ⟨s, d, hsd, ?_, fun hlen => by omega⟩
  simp only [process_brands_batch]
  rw [hloop]
  rfl

/-- Witness for C10: batch `[("a", "x"), ("b", "y")]` where inserting "a"
succeeds and inserting "b" raises a non-duplicate store error. -/
theorem stats_non_atomicity_witness :
    ∃ s d, s + d = [("a", "x")].length ∧
      process_brands_batch
          (fun key => if key = "a" then InsertResult.ok else InsertResult.failure)
          true ([("a", "x")] ++ ("b", "y") :: []) WriteMode.insert ⟨0, 0, 0⟩ =
        ({ successful := 0 + s, skipped := 0 + d,
           failed := 0 + ([("a", "x")] ++ ("b", "y") :: []).length },
         [Severity.error]) ∧
      (0 < [("a", "x")].length →
        0 + s + (0 + d) + (0 + ([("a", "x")] ++ ("b", "y") :: []).length) >
          0 + 0 + 0 + ([("a", "x")] ++ ("b", "y") :: []).length) :=
  stats_non_atomicity
    (fun key => if key = "a" then InsertResult.ok else InsertResult.failure)
    true [("a", "x")] [] "b" "y" ⟨0, 0, 0⟩ (by decide) (by decide)

/-- C8 counterexample: with a valid configuration and an unrecoverable
connection failure, `generate_plates.main` exits 0, not 1 — the connection
exception is raised inside the `try` block and swallowed by
`except Exception` (line 224). -/
theorem connection_failure_exit_zero :
    generate_plates_exit true false 0 ≠ 1 := by decide

/-- C8 (amended) — Exit codes: `build_environment.py` exits 0 on success and
1 on configuration validation failure or on an escaping store exception
(including unrecoverable connection failure); `generate_plates.py` exits 1
on configuration validation failure (the `ValueError` is raised before the
`try` block) but 0 when the connection fails, because the exception is
caught and logged; in both, the number of failed batches never influences
the exit code. -/
theorem exit_codes_amended (c : BuildConfig) (err : Bool)
    (configValid connectOk : Bool) (f f' : Nat) :
    (validate_config c = false → build_environment_exit c err = 1) ∧
    (validate_config c = true → err = true → build_environment_exit c err = 1) ∧
    (validate_config c = true → err = false → build_environment_exit c err = 0) ∧
    (configValid = false → generate_plates_exit configValid connectOk f = 1) ∧
    (configValid = true → generate_plates_exit configValid connectOk f = 0) ∧
    generate_plates_exit configValid connectOk f =
      generate_plates_exit configValid connectOk f' := by
  refine ⟨?_, ?_, ?_, ?_, ?_, ?_⟩
  · intro h; simp [build_environment_exit, h]
  · intro h he; simp [build_environment_exit, h, he]
  · intro h he; simp [build_environment_exit, h, he]
  · intro h; simp [generate_plates_exit, h]
  · intro h
    cases connectOk <;> simp [generate_plates_exit, plates_try_block, h]
  · cases configValid <;> cases connectOk <;>
      simp [generate_plates_exit, plates_try_block]

/-- Witness for C8 (amended): a failing connection in `build_environment`
exits 1, while the same failure in `generate_plates` exits 0. -/
theorem exit_codes_amended_witness :
    build_environment_exit ⟨true, true, true⟩ true = 1 ∧
    generate_plates_exit true false 7 = 0 :=
  ⟨(exit_codes_amended ⟨true, true, true⟩ true true false 7 7).2.1 rfl rfl,
   (exit_codes_amended ⟨true, true, true⟩ true true false 7 7).2.2.2.2.1 rfl⟩
